import Mathlib

/-!
Shallow embedding of the vemcache in-memory vector database
(src/vemcache.rs, src/commands.rs, src/handlers.rs, src/main.rs).

Modelling choices, applied uniformly:

* `f32` values are embedded as exact rationals (`ℚ`).  Floating-point
  rounding is not modelled; claims about numeric results therefore hold
  in exact arithmetic.
* The `HashMap<String, Vec<f32>>` storage is embedded as an association
  list.  `insert` replaces any previous binding of the key, `get` looks
  up the first binding, `remove` deletes every binding of the key, so on
  states with no duplicate keys (the only states a `HashMap` produces)
  the model agrees with the map semantics.  The iteration order of a
  `HashMap` is unspecified; the association list fixes one order, and we
  only prove order-insensitive facts (permutations, sortedness, lengths)
  about iteration-dependent results.
* `euclidean_distance` in the source returns the `f32` square root of
  the sum of squared coordinate differences.  The square root of a
  rational is irrational in general, so the embedding works with the
  squared distance (`euclidean_distance_sq`).  The real square root is
  strictly monotone on nonnegative reals, so every comparison and every
  sort of distances performed by the source is unchanged by dropping
  the square root.
* `cosine_similarity` in the source returns
  `dot / (sqrt m1sq * sqrt m2sq)`.  The embedding returns the triple
  `(dot, m1sq, m2sq)` of the dot product and the two squared magnitudes,
  the data from which the source computes that quotient; the option
  structure (when the function returns `None`) is modelled exactly.  The
  divisor of the source is zero exactly when `m1sq = 0` or `m2sq = 0`.
-/

namespace VemcacheModel

/-- `type VectorId = String` from src/vemcache.rs. -/
abbrev VectorId := String

/-- `type Vector = Vec<f32>` from src/vemcache.rs, with `f32` embedded as `ℚ`. -/
abbrev Vector := List ℚ

/-- `pub struct Vemcache { storage: HashMap<VectorId, Vector> }` from
src/vemcache.rs, with the hash map embedded as an association list. -/
structure Vemcache where
  storage : List (VectorId × Vector)
deriving DecidableEq, Repr

/-- `Vemcache::new` from src/vemcache.rs: an empty storage. -/
def Vemcache.new : Vemcache := ⟨[]⟩

/-- `Vemcache::get` from src/vemcache.rs: `self.storage.get(&id)`.  Looks up
the binding of `id` in the association list. -/
def Vemcache.get (db : Vemcache) (id : VectorId) : Option Vector :=
  (db.storage.find? (fun p => p.1 == id)).map Prod.snd

/-- `Vemcache::insert_with_key` from src/vemcache.rs:
`self.storage.insert(key, vector)`.  A `HashMap` insert replaces any
previous binding of the key. -/
def Vemcache.insert_with_key (db : Vemcache) (key : VectorId) (vector : Vector) :
    Vemcache :=
  ⟨(key, vector) :: db.storage.filter (fun p => p.1 != key)⟩

/-- `Vemcache::insert_with_uuid` from src/vemcache.rs.  The source draws a
fresh UUID from `Uuid::new_v4()`; the embedding takes the drawn id as the
argument `u` and returns it together with the updated store, exactly as the
source inserts it and returns it. -/
def Vemcache.insert_with_uuid (db : Vemcache) (vector : Vector) (u : VectorId) :
    VectorId × Vemcache :=
  (u, db.insert_with_key u vector)

/-- `Vemcache::remove` from src/vemcache.rs: `self.storage.remove(&id)`.
A `HashMap` remove deletes the binding of the key and returns the removed
value, `None` when the key was absent. -/
def Vemcache.remove (db : Vemcache) (id : VectorId) : Option Vector × Vemcache :=
  (db.get id, ⟨db.storage.filter (fun p => p.1 != id)⟩)

/-- `Vemcache::euclidean_distance` from src/vemcache.rs, without the final
`sqrt` (see the module comment): `zip` truncates to the shorter of the two
vectors, each pairwise difference is squared, and the squares are summed. -/
def Vemcache.euclidean_distance_sq (v1 v2 : Vector) : ℚ :=
  (((v1.zip v2).map (fun p => (p.1 - p.2) ^ 2)).sum)

/-- The comparator used by `k_nearest_neighbors` in src/vemcache.rs:
`dist1.partial_cmp(dist2).unwrap()`.  On rationals the comparison is total,
matching the source on every non-NaN `f32` distance. -/
def distLe (a b : VectorId × ℚ) : Bool := a.2 ≤ b.2

/-- `Vemcache::k_nearest_neighbors` from src/vemcache.rs: pair every stored
id with its distance to the query, sort by distance, take the first `k`, and
look each surviving id back up in the storage.  The source `unwrap`s that
final lookup, which always succeeds because the id came from the storage;
the embedding uses `getD []` in that spot. -/
def Vemcache.k_nearest_neighbors (db : Vemcache) (query : Vector) (k : Nat) :
    List (VectorId × Vector) :=
  let neighbors := db.storage.map
    (fun p => (p.1, Vemcache.euclidean_distance_sq query p.2))
  let sorted := neighbors.mergeSort distLe
  (sorted.take k).map (fun p => (p.1, (db.get p.1).getD []))

/-- `Vemcache::vector_addition` from src/vemcache.rs: look up both keys
(propagating `None`), require equal lengths, and add element-wise. -/
def Vemcache.vector_addition (db : Vemcache) (key1 key2 : VectorId) :
    Option Vector :=
  match db.get key1, db.get key2 with
  | some v1, some v2 =>
      if v1.length ≠ v2.length then none
      else some ((v1.zip v2).map (fun p => p.1 + p.2))
  | _, _ => none

/-- `Vemcache::vector_subtraction` from src/vemcache.rs: look up both keys
(propagating `None`), require equal lengths, and subtract element-wise. -/
def Vemcache.vector_subtraction (db : Vemcache) (key1 key2 : VectorId) :
    Option Vector :=
  match db.get key1, db.get key2 with
  | some v1, some v2 =>
      if v1.length ≠ v2.length then none
      else some ((v1.zip v2).map (fun p => p.1 - p.2))
  | _, _ => none

/-- `Vemcache::vector_scaling` from src/vemcache.rs: look up the key
(propagating `None`) and multiply every coordinate by the scalar. -/
def Vemcache.vector_scaling (db : Vemcache) (key : VectorId) (scalar : ℚ) :
    Option Vector :=
  match db.get key with
  | some v => some (v.map (fun x => x * scalar))
  | none => none

/-- `Vemcache::cosine_similarity` from src/vemcache.rs.  The source returns
`None` exactly when the lengths differ, and otherwise
`Some(dot / (sqrt m1sq * sqrt m2sq))`; the embedding returns the triple
`(dot, m1sq, m2sq)` from which the source forms that quotient (see the
module comment).  The divisor of the source is zero exactly when one of the
two squared magnitudes in the triple is zero. -/
def Vemcache.cosine_similarity (v1 v2 : Vector) : Option (ℚ × ℚ × ℚ) :=
  if v1.length ≠ v2.length then none
  else
    let dot_product := ((v1.zip v2).map (fun p => p.1 * p.2)).sum
    let magnitude_v1_sq := (v1.map (fun x => x ^ 2)).sum
    let magnitude_v2_sq := (v2.map (fun x => x ^ 2)).sum
    some (dot_product, magnitude_v1_sq, magnitude_v2_sq)

/-! ### The command layer (src/commands.rs)

Tokenisation models `str::split_whitespace` (maximal nonempty chunks
between whitespace characters).  The numeric token parsers model the
standard library `str::parse::<usize>` and `str::parse::<f32>`:

* `parseNat` accepts an optional leading plus sign followed by at least
  one decimal digit (a leading minus sign is rejected for `usize`); the
  `usize` overflow error of the source is not modelled, and no claim
  exercises it.
* `parseF32` accepts an optional sign followed by a decimal numeral
  `digits`, `digits.`, `digits.digits` or `.digits`.  The exponent,
  `inf` and `NaN` forms of the `f32` grammar are not modelled; every
  claim instantiates the parser only on tokens on which the model and
  the full grammar agree (plain numerals and purely alphabetic tokens).
-/

/-- One pass of `split_whitespace`: accumulate the current chunk (in
reverse) and emit it at each whitespace boundary. -/
def splitWsAux : List Char → List Char → List String
  | [], acc => if acc.isEmpty then [] else [String.mk acc.reverse]
  | c :: cs, acc =>
      if c.isWhitespace then
        if acc.isEmpty then splitWsAux cs []
        else String.mk acc.reverse :: splitWsAux cs []
      else splitWsAux cs (c :: acc)

/-- `input.split_whitespace().collect()` from `parse_command` in
src/commands.rs. -/
def tokenize (s : String) : List String := splitWsAux s.data []

/-- Model of `str::to_lowercase` from `parse_command` in src/commands.rs:
character-wise lowercasing.  `Char.toLower` lowers the ASCII range, which
agrees with Unicode lowercasing on every command word the parser compares
against. -/
def strToLower (s : String) : String := String.mk (s.data.map Char.toLower)

/-- Value of a list of decimal digit characters. -/
def digitsToNat (ds : List Char) : Nat :=
  ds.foldl (fun n c => 10 * n + (c.toNat - 48)) 0

/-- Model of `str::parse::<usize>` (see the section comment). -/
def parseNat (s : String) : Option Nat :=
  match s.data with
  | [] => none
  | '+' :: ds =>
      if ds ≠ [] ∧ ds.all Char.isDigit then some (digitsToNat ds) else none
  | ds =>
      if ds.all Char.isDigit then some (digitsToNat ds) else none

/-- The unsigned part of `parseF32`: `digits`, `digits.`, `digits.digits`
or `.digits`, with at least one digit overall. -/
def parseUnsigned (ds : List Char) : Option ℚ :=
  let ip := ds.takeWhile Char.isDigit
  let rest := ds.dropWhile Char.isDigit
  match rest with
  | [] => if ip.isEmpty then none else some ((digitsToNat ip : ℚ))
  | c :: frac =>
      if c = '.' ∧ frac.all Char.isDigit ∧ (ip ≠ [] ∨ frac ≠ []) then
        some ((digitsToNat ip : ℚ) + (digitsToNat frac : ℚ) / ((10 : ℚ) ^ frac.length))
      else none

/-- Model of `str::parse::<f32>` (see the section comment). -/
def parseF32 (s : String) : Option ℚ :=
  match s.data with
  | '+' :: ds => parseUnsigned ds
  | '-' :: ds => (parseUnsigned ds).map (fun q => -q)
  | ds => parseUnsigned ds

/-- `pub enum Command` from src/commands.rs. -/
inductive Command where
  | Ping : Command
  | Insert : Vector → Command
  | NamedInsert : String → Vector → Command
  | Get : String → Command
  | Remove : String → Command
  | KNearestNeighbors : String → Nat → Command
  | VectorAddition : String → String → Command
  | VectorSubtraction : String → String → Command
  | VectorScaling : String → ℚ → Command
  | CosineSimilarity : String → String → Command
  | Dump : String → Command
deriving DecidableEq, Repr

/-- The body of `parse_command` from src/commands.rs after tokenisation:
the `match tokens[0].to_lowercase()` dispatch.  The source error type
`Result<Command, &str>` is embedded as `Except String Command`. -/
def parse_tokens : List String → Except String Command
  | [] => .error "Empty command"
  | t0 :: rest =>
    match strToLower t0 with
    | "ping" => .ok .Ping
    | "insert" =>
        if rest.isEmpty then .error "Invalid INSERT command"
        else .ok (.Insert (rest.filterMap parseF32))
    | "named_insert" =>
        match rest with
        | key :: v0 :: vrest => .ok (.NamedInsert key ((v0 :: vrest).filterMap parseF32))
        | _ => .error "Invalid NAMED_INSERT command"
    | "get" =>
        match rest with
        | [key] => .ok (.Get key)
        | _ => .error "Invalid GET command"
    | "remove" =>
        match rest with
        | [key] => .ok (.Remove key)
        | _ => .error "Invalid REMOVE command"
    | "knn" =>
        match rest with
        | [] => .error "Missing key"
        | key :: rest2 =>
          match rest2 with
          | [] => .error "Missing k"
          | ktok :: _ =>
            match parseNat ktok with
            | some k => .ok (.KNearestNeighbors key k)
            | none => .error "Invalid k value"
    | "vadd" =>
        match rest with
        | [] => .error "Missing key1"
        | key1 :: rest2 =>
          match rest2 with
          | [] => .error "Missing key2"
          | key2 :: _ => .ok (.VectorAddition key1 key2)
    | "vsub" =>
        match rest with
        | [] => .error "Missing key1"
        | key1 :: rest2 =>
          match rest2 with
          | [] => .error "Missing key2"
          | key2 :: _ => .ok (.VectorSubtraction key1 key2)
    | "vscale" =>
        match rest with
        | [] => .error "Missing key"
        | key :: rest2 =>
          match rest2 with
          | [] => .error "Missing scalar"
          | stok :: _ =>
            match parseF32 stok with
            | some scalar => .ok (.VectorScaling key scalar)
            | none => .error "Invalid scalar value"
    | "vcosine" =>
        match rest with
        | [] => .error "Missing key1"
        | key1 :: rest2 =>
          match rest2 with
          | [] => .error "Missing key2"
          | key2 :: _ => .ok (.CosineSimilarity key1 key2)
    | "dump" =>
        match rest with
        | [file_path] => .ok (.Dump file_path)
        | _ => .error "Invalid DUMP command"
    | _ => .error "Unknown command"

/-- `pub fn parse_command` from src/commands.rs. -/
def parse_command (input : String) : Except String Command :=
  parse_tokens (tokenize input)

/-! ### The protocol layer (src/handlers.rs and the dispatch loop of
src/main.rs)

Each handler writes one response to the client socket; the embedding
returns that response as a `String` and (for the mutating commands) the
updated store.  The `Debug` rendering `{:?}` of a `Vec<f32>` and the
`{:.4}` rendering of an `f32` are text formatting of numerals; the
embedding renders the exact rationals instead (`formatVector`,
`formatSim`).  No claim depends on the numeral text, only on the shape
of the surrounding response. -/

/-- Model of the `Debug` rendering `{:?}` of a `Vec<f32>`: the elements,
comma-separated, in square brackets, with each numeral rendered from the
embedded rational. -/
def formatVector (v : Vector) : String :=
  "[" ++ String.intercalate ", " (v.map (fun q => toString q)) ++ "]"

/-- Model of the `{:.4}` rendering of the cosine similarity value: the
embedding renders the triple of the dot product and the two squared
magnitudes from which the source computes the displayed quotient. -/
def formatSim (t : ℚ × ℚ × ℚ) : String :=
  toString t.1 ++ ":" ++ toString t.2.1 ++ ":" ++ toString t.2.2

/-- `handle_vector_addition` from src/handlers.rs: the response written for
a `vadd` command (the handler does not modify the store). -/
def handle_vector_addition (db : Vemcache) (key1 key2 : String) : String :=
  match db.get key1, db.get key2 with
  | some _, some _ =>
      match db.vector_addition key1 key2 with
      | some result => "Result: " ++ formatVector result ++ "\n"
      | none => "Vectors are not compatible for addition\n"
  | _, _ => "One or both keys not found\n"

/-- `handle_vector_subtraction` from src/handlers.rs: the response written
for a `vsub` command (the handler does not modify the store). -/
def handle_vector_subtraction (db : Vemcache) (key1 key2 : String) : String :=
  match db.get key1, db.get key2 with
  | some _, some _ =>
      match db.vector_subtraction key1 key2 with
      | some result => "Result: " ++ formatVector result ++ "\n"
      | none => "Vectors are not compatible for subtraction\n"
  | _, _ => "One or both keys not found\n"

/-- `handle_vector_scaling` from src/handlers.rs: the response written for
a `vscale` command (the handler does not modify the store). -/
def handle_vector_scaling (db : Vemcache) (key : String) (scalar : ℚ) : String :=
  match db.get key with
  | some _ =>
      match db.vector_scaling key scalar with
      | some result => "Result: " ++ formatVector result ++ "\n"
      | none => "Error: Vector scaling failed\n"
  | none => "Key not found\n"

/-- `handle_cosine_similarity` from src/handlers.rs: the response written
for a `vcosine` command (the handler does not modify the store). -/
def handle_cosine_similarity (db : Vemcache) (key1 key2 : String) : String :=
  match db.get key1, db.get key2 with
  | some v1, some v2 =>
      match Vemcache.cosine_similarity v1 v2 with
      | some sim => "Cosine Similarity: " ++ formatSim sim ++ "\n"
      | none => "Vectors are not compatible for cosine similarity\n"
  | _, _ => "One or both keys not found\n"

/-- `handle_k_nearest_neighbors` from src/handlers.rs: look the query key
up, run the search, and join the formatted neighbors with newlines (the
handler does not modify the store). -/
def handle_knn (db : Vemcache) (key : String) (k : Nat) : String :=
  match db.get key with
  | some query_vector =>
      String.intercalate "\n"
        ((db.k_nearest_neighbors query_vector k).map
          (fun p => "ID: " ++ p.1 ++ ", Vector: " ++ formatVector p.2))
  | none => "Key not found\n"

/-- `handle_get` from src/handlers.rs: the response written for a `get`
command (the handler does not modify the store). -/
def handle_get (db : Vemcache) (key : String) : String :=
  match db.get key with
  | some values => formatVector values ++ "\n"
  | none => "null\n"

/-- One iteration of the command dispatch: the parsed command applied to
the store, returning the updated store and the response written to the
client.  Each arm is the corresponding `handle_*` function of
src/handlers.rs (the loop in `handle_client` of src/main.rs inlines the
same per-command logic).  `u` models the UUID drawn by `Uuid::new_v4()`
for an `insert`; it is ignored by every other command.  The file write of
`dump` is outside the model; its arm keeps the store and returns the
success response. -/
def step (db : Vemcache) (c : Command) (u : VectorId) : Vemcache × String :=
  match c with
  | .Ping => (db, "pong\n")
  | .Insert values => ((db.insert_with_uuid values u).2, "OK\n")
  | .NamedInsert key values => (db.insert_with_key key values, "OK\n")
  | .Get key => (db, handle_get db key)
  | .Remove key => ((db.remove key).2, "OK\n")
  | .KNearestNeighbors key k => (db, handle_knn db key k)
  | .VectorAddition key1 key2 => (db, handle_vector_addition db key1 key2)
  | .VectorSubtraction key1 key2 => (db, handle_vector_subtraction db key1 key2)
  | .VectorScaling key scalar => (db, handle_vector_scaling db key scalar)
  | .CosineSimilarity key1 key2 => (db, handle_cosine_similarity db key1 key2)
  | .Dump file_path => (db, "Database dump successful: " ++ file_path ++ "\n")

/-! ### Association-list storage lemmas -/

/-- Filtering by a predicate implied by the search predicate does not change
the result of `find?`. -/
theorem find?_filter_of_imp {α : Type} (l : List α) (p q : α → Bool)
    (h : ∀ x, p x = true → q x = true) :
    (l.filter q).find? p = l.find? p := by
  induction l with
  | nil => rfl
  | cons a t ih =>
    by_cases hq : q a = true
    · rw [List.filter_cons_of_pos hq]
      by_cases hp : p a = true
      · rw [List.find?_cons_of_pos _ hp, List.find?_cons_of_pos _ hp]
      · rw [List.find?_cons_of_neg _ (by simpa using hp),
          List.find?_cons_of_neg _ (by simpa using hp), ih]
    · have hp : ¬ p a = true := fun hpa => hq (h a hpa)
      rw [List.filter_cons_of_neg (by simpa using hq), ih,
        List.find?_cons_of_neg _ (by simpa using hp)]

/-- Inserting a key and looking it up yields the inserted vector. -/
theorem Vemcache.get_insert_self (db : Vemcache) (k : VectorId) (v : Vector) :
    (db.insert_with_key k v).get k = some v := by
  unfold Vemcache.get Vemcache.insert_with_key
  rw [List.find?_cons_of_pos _ (by simp)]
  rfl

/-- Inserting one key does not change the binding of another key. -/
theorem Vemcache.get_insert_ne (db : Vemcache) (k k2 : VectorId) (v : Vector)
    (h : k2 ≠ k) :
    (db.insert_with_key k v).get k2 = db.get k2 := by
  unfold Vemcache.get Vemcache.insert_with_key
  rw [List.find?_cons_of_neg _ (by simp [Ne.symm h]),
    find?_filter_of_imp _ _ _ (fun x hx => ?_)]
  have hx1 : x.1 = k2 := by simpa using hx
  simp [hx1, h]

/-- In an association list with no duplicate keys, `find?` on the key of a
member returns exactly that member. -/
theorem find?_key_of_mem_nodup {l : List (VectorId × Vector)} {id : VectorId}
    {v : Vector} (hnd : (l.map Prod.fst).Nodup) (hm : (id, v) ∈ l) :
    l.find? (fun p => p.1 == id) = some (id, v) := by
  induction l with
  | nil => cases hm
  | cons a t ih =>
    rcases List.mem_cons.mp hm with he | hm2
    · subst he
      exact List.find?_cons_of_pos _ (by simp)
    · have hnd2 : (a.1 :: t.map Prod.fst).Nodup := by simpa using hnd
      have hne : ¬ a.1 = id := by
        intro he
        exact (List.nodup_cons.mp hnd2).1
          (he ▸ List.mem_map.mpr ⟨(id, v), hm2, rfl⟩)
      rw [List.find?_cons_of_neg _ (by simpa using hne)]
      exact ih (List.nodup_cons.mp hnd2).2 hm2

/-- In a store with no duplicate keys, `get` on the key of a stored entry
returns the stored vector. -/
theorem Vemcache.get_of_mem_nodup (db : Vemcache) (id : VectorId) (v : Vector)
    (hnd : (db.storage.map Prod.fst).Nodup) (hm : (id, v) ∈ db.storage) :
    db.get id = some v := by
  unfold Vemcache.get
  rw [find?_key_of_mem_nodup hnd hm]
  rfl

/-- C5.  Inserting a vector under a key and then getting that key returns
exactly that vector; a second insert under the same key replaces the
previous vector, and the key is then bound by exactly one storage entry. -/
theorem C5_insert_get_roundtrip (db : Vemcache) (k : VectorId) (v v2 : Vector) :
    (db.insert_with_key k v).get k = some v ∧
    ((db.insert_with_key k v).insert_with_key k v2).get k = some v2 ∧
    ((db.insert_with_key k v).insert_with_key k v2).storage.filter
      (fun p => p.1 == k) = [(k, v2)] := by
  refine ⟨Vemcache.get_insert_self db k v,
    Vemcache.get_insert_self (db.insert_with_key k v) k v2, ?_⟩
  unfold Vemcache.insert_with_key
  rw [List.filter_cons_of_pos (by simp)]
  have : ∀ l : List (VectorId × Vector),
      (l.filter (fun p => p.1 != k)).filter (fun p => p.1 == k) = [] := by
    intro l
    rw [List.filter_eq_nil_iff]
    intro a ha
    have := (List.mem_filter.mp ha).2
    simp_all
  rw [this]

/-- After a removal, the removed key has no binding. -/
theorem Vemcache.remove_get_none (db : Vemcache) (id : VectorId) :
    ((db.remove id).2).get id = none := by
  unfold Vemcache.remove Vemcache.get
  rw [Option.map_eq_none', List.find?_eq_none]
  intro x hx
  have := (List.mem_filter.mp hx).2
  simpa using this

/-- Removing an absent key returns `none` and leaves the store unchanged. -/
theorem Vemcache.remove_absent (db : Vemcache) (id : VectorId)
    (hn : db.get id = none) : db.remove id = (none, db) := by
  have hn2 : db.storage.find? (fun p => p.1 == id) = none := by
    unfold Vemcache.get at hn
    exact Option.map_eq_none'.mp hn
  have hall := List.find?_eq_none.mp hn2
  unfold Vemcache.remove
  rw [hn]
  have hfil : db.storage.filter (fun p => p.1 != id) = db.storage := by
    rw [List.filter_eq_self]
    intro a ha
    simpa using hall a ha
  rw [hfil]

/-- C6.  Removing a present key returns the stored vector and deletes the
binding; removing an absent key returns `none` and leaves the store
unchanged; hence a second removal of the same key is a no-op returning
`none`. -/
theorem C6_remove_behavior (db : Vemcache) (id : VectorId) :
    (∀ v, db.get id = some v → (db.remove id).1 = some v) ∧
    ((db.remove id).2).get id = none ∧
    (db.get id = none → db.remove id = (none, db)) ∧
    ((db.remove id).2).remove id = (none, (db.remove id).2) :=
  ⟨fun _ hv => hv, Vemcache.remove_get_none db id,
    fun hn => Vemcache.remove_absent db id hn,
    Vemcache.remove_absent ((db.remove id).2) id (Vemcache.remove_get_none db id)⟩

/-- Closed instance of C6 at a concrete store, discharging each hypothesis:
removing the present key `a` returns its vector and deletes it, and removing
the absent key `a` from a store that does not contain it is a no-op. -/
theorem C6_remove_behavior_witness :
    (Vemcache.remove ⟨[("a", [1])]⟩ "a").1 = some [1] ∧
    ((Vemcache.remove ⟨[("a", [1])]⟩ "a").2).get "a" = none ∧
    Vemcache.remove ⟨[("b", [2])]⟩ "a" = (none, ⟨[("b", [2])]⟩) :=
  ⟨(C6_remove_behavior ⟨[("a", [1])]⟩ "a").1 [1] (by decide),
    (C6_remove_behavior ⟨[("a", [1])]⟩ "a").2.1,
    (C6_remove_behavior ⟨[("b", [2])]⟩ "a").2.2.1 (by decide)⟩

/-- Element-wise subtraction undoes element-wise addition on equal-length
rational vectors. -/
theorem add_sub_cancel_list : ∀ (v1 v2 : List ℚ), v1.length = v2.length →
    ((((v1.zip v2).map (fun p => p.1 + p.2)).zip v2).map (fun p => p.1 - p.2)) = v1
  | [], [], _ => rfl
  | [], _ :: _, h => by cases h
  | _ :: _, [], h => by cases h
  | a :: t1, b :: t2, h => by
    simp only [List.zip_cons_cons, List.map_cons, List.length_cons] at h ⊢
    rw [add_sub_cancel_right, add_sub_cancel_list t1 t2 (by omega)]

/-- C7.  For stored equal-length vectors `v1` and `v2`, inserting the sum
produced by `vector_addition` under a fresh key and subtracting `v2` from it
with `vector_subtraction` yields `v1` again (exactly, in the embedded
rational arithmetic). -/
theorem C7_add_sub_roundtrip (db : Vemcache) (k1 k2 kr : VectorId)
    (v1 v2 w : Vector)
    (h1 : db.get k1 = some v1) (h2 : db.get k2 = some v2)
    (hw : db.vector_addition k1 k2 = some w) (hne : kr ≠ k2) :
    (db.insert_with_key kr w).vector_subtraction kr k2 = some v1 := by
  simp only [Vemcache.vector_addition, h1, h2] at hw
  by_cases hlen : v1.length = v2.length
  · rw [if_neg (by omega)] at hw
    have hw2 : w = (v1.zip v2).map (fun p => p.1 + p.2) := by
      cases hw; rfl
    have hwlen : w.length = v2.length := by
      subst hw2
      simp [List.length_zip, hlen]
    have hsub : (db.insert_with_key kr w).vector_subtraction kr k2 =
        if w.length ≠ v2.length then none
        else some ((w.zip v2).map (fun p => p.1 - p.2)) := by
      unfold Vemcache.vector_subtraction
      rw [Vemcache.get_insert_self, Vemcache.get_insert_ne db kr k2 w hne.symm, h2]
    rw [hsub, if_neg (by omega)]
    subst hw2
    rw [add_sub_cancel_list v1 v2 hlen]
  · rw [if_pos (by omega)] at hw
    cases hw

/-- Closed instance of C7 at a concrete store, discharging each hypothesis:
adding the vectors of keys `a` and `b`, storing the sum under `c`, and
subtracting the vector of `b` from it returns the vector of `a`. -/
theorem C7_add_sub_roundtrip_witness :
    (Vemcache.insert_with_key ⟨[("a", [1, 2]), ("b", [3, 4])]⟩ "c"
      [4, 6]).vector_subtraction "c" "b" = some [1, 2] := by
  have ha : (⟨[("a", [1, 2]), ("b", [3, 4])]⟩ : Vemcache).get "a" = some [1, 2] := by
    decide
  have hb : (⟨[("a", [1, 2]), ("b", [3, 4])]⟩ : Vemcache).get "b" = some [3, 4] := by
    decide
  exact C7_add_sub_roundtrip ⟨[("a", [1, 2]), ("b", [3, 4])]⟩ "a" "b" "c"
    [1, 2] [3, 4] [4, 6] ha hb
    (by norm_num [Vemcache.vector_addition, ha, hb]) (by decide)

/-! ### k-nearest-neighbors lemmas (C1, C3) -/

/-- C1 counterexample: a stored vector whose length differs from the query
length is returned by `k_nearest_neighbors` (its distance is computed over
the zipped common prefix), not excluded. -/
theorem C1_counterexample :
    Vemcache.k_nearest_neighbors ⟨[("a", [0, 0])]⟩ [1, 1, 1] 1 = [("a", [0, 0])] ∧
    ([0, 0] : Vector).length ≠ ([1, 1, 1] : Vector).length := by
  constructor
  · norm_num [Vemcache.k_nearest_neighbors, List.mergeSort, Vemcache.get,
      Vemcache.euclidean_distance_sq, distLe, List.merge]
  · decide

/-- C1 amended: `k_nearest_neighbors` computes a distance to every stored
vector regardless of its length and excludes none of them; with `k` equal
to the store size, the returned ids are a permutation of all stored ids
(and the function is total, so no length mismatch causes a failure). -/
theorem C1_knn_no_length_filter (db : Vemcache) (q : Vector) :
    ((db.k_nearest_neighbors q db.storage.length).map Prod.fst).Perm
      (db.storage.map Prod.fst) := by
  have hres : db.k_nearest_neighbors q db.storage.length =
      (((db.storage.map
          (fun p => (p.1, Vemcache.euclidean_distance_sq q p.2))).mergeSort
            distLe).take db.storage.length).map
        (fun p => (p.1, (db.get p.1).getD [])) := rfl
  rw [hres]
  rw [List.take_of_length_le (by rw [List.length_mergeSort, List.length_map])]
  rw [List.map_map]
  refine ((List.mergeSort_perm _ distLe).map _).trans (List.Perm.of_eq ?_)
  rw [List.map_map]
  rfl

/-- In a store with no duplicate keys, looking up the id of a neighbors
entry recovers the vector whose distance the entry records. -/
theorem knn_lookup_dist (db : Vemcache) (q : Vector) (a : VectorId × ℚ)
    (hnd : (db.storage.map Prod.fst).Nodup)
    (ha : a ∈ db.storage.map
      (fun p => (p.1, Vemcache.euclidean_distance_sq q p.2))) :
    Vemcache.euclidean_distance_sq q ((db.get a.1).getD []) = a.2 := by
  rcases List.mem_map.mp ha with ⟨p, hp, he⟩
  have hg : db.get p.1 = some p.2 :=
    Vemcache.get_of_mem_nodup db p.1 p.2 hnd hp
  rw [← he]
  simp [hg]

/-- The comparator `distLe` is transitive. -/
theorem distLe_trans : ∀ a b c : VectorId × ℚ, distLe a b → distLe b c → distLe a c := by
  intro a b c hab hbc
  simp only [distLe, decide_eq_true_eq] at hab hbc ⊢
  exact le_trans hab hbc

/-- The comparator `distLe` is total. -/
theorem distLe_total : ∀ a b : VectorId × ℚ, distLe a b || distLe b a := by
  intro a b
  simp only [distLe, Bool.or_eq_true, decide_eq_true_eq]
  exact le_total _ _

/-- C3 amended: on a store with no duplicate keys, `k_nearest_neighbors`
returns a sequence sorted by non-decreasing (zip-truncated squared)
Euclidean distance to the query, of length `min k (number of stored
vectors)` (all stored vectors count, not only those of the query length);
for `k ≥ 1` its first element attains the minimal distance among all
stored vectors. -/
theorem C3_knn_sorted (db : Vemcache) (q : Vector) (k : Nat)
    (hnd : (db.storage.map Prod.fst).Nodup) :
    (db.k_nearest_neighbors q k).length = min k db.storage.length ∧
    (db.k_nearest_neighbors q k).Pairwise
      (fun a b => Vemcache.euclidean_distance_sq q a.2 ≤
        Vemcache.euclidean_distance_sq q b.2) ∧
    (∀ p ∈ db.storage, 1 ≤ k →
      Vemcache.euclidean_distance_sq q
          (((db.k_nearest_neighbors q k).headD ("", [])).2) ≤
        Vemcache.euclidean_distance_sq q p.2) := by
  have hres : db.k_nearest_neighbors q k =
      (((db.storage.map
          (fun p => (p.1, Vemcache.euclidean_distance_sq q p.2))).mergeSort
            distLe).take k).map
        (fun p => (p.1, (db.get p.1).getD [])) := rfl
  have hs := List.sorted_mergeSort distLe_trans distLe_total
    (db.storage.map (fun p => (p.1, Vemcache.euclidean_distance_sq q p.2)))
  refine ⟨?_, ?_, ?_⟩
  · rw [hres, List.length_map, List.length_take, List.length_mergeSort,
      List.length_map]
  · rw [hres, List.pairwise_map]
    refine List.Pairwise.imp_of_mem ?_
      (List.Pairwise.sublist (List.take_sublist _ _) hs)
    intro a b hma hmb hab
    have hma2 := List.mem_mergeSort.mp ((List.take_sublist _ _).mem hma)
    have hmb2 := List.mem_mergeSort.mp ((List.take_sublist _ _).mem hmb)
    rw [knn_lookup_dist db q a hnd hma2, knn_lookup_dist db q b hnd hmb2]
    simpa [distLe] using hab
  · intro p hp hk
    obtain ⟨s0, rest, hcons⟩ : ∃ s0 rest,
        ((db.storage.map
          (fun p => (p.1, Vemcache.euclidean_distance_sq q p.2))).mergeSort
            distLe) = s0 :: rest := by
      refine List.exists_cons_of_ne_nil (fun h0 => ?_)
      have hlen : ((db.storage.map
          (fun p => (p.1, Vemcache.euclidean_distance_sq q p.2))).mergeSort
            distLe).length = db.storage.length := by
        rw [List.length_mergeSort, List.length_map]
      rw [h0] at hlen
      have hpos : 0 < db.storage.length :=
        List.length_pos.mpr (List.ne_nil_of_mem hp)
      simp at hlen
      omega
    obtain ⟨k2, rfl⟩ : ∃ k2, k = k2 + 1 := ⟨k - 1, by omega⟩
    have hhead : (db.k_nearest_neighbors q (k2 + 1)).headD ("", []) =
        (s0.1, (db.get s0.1).getD []) := by
      rw [hres, hcons, List.take_succ_cons, List.map_cons, List.headD_cons]
    have hmem0 : s0 ∈ (db.storage.map
        (fun p => (p.1, Vemcache.euclidean_distance_sq q p.2))).mergeSort
          distLe := by
      rw [hcons]
      exact List.mem_cons_self _ _
    have hs0mem : s0 ∈ db.storage.map
        (fun p => (p.1, Vemcache.euclidean_distance_sq q p.2)) :=
      List.mem_mergeSort.mp hmem0
    have hs0dist : Vemcache.euclidean_distance_sq q ((db.get s0.1).getD []) = s0.2 :=
      knn_lookup_dist db q s0 hnd hs0mem
    rw [hhead]
    simp only []
    rw [hs0dist]
    have hpmem : (p.1, Vemcache.euclidean_distance_sq q p.2) ∈
        ((db.storage.map
          (fun p => (p.1, Vemcache.euclidean_distance_sq q p.2))).mergeSort
            distLe) :=
      List.mem_mergeSort.mpr (List.mem_map.mpr ⟨p, hp, rfl⟩)
    rw [hcons] at hpmem
    rcases List.mem_cons.mp hpmem with he | hm
    · rw [← he]
    · have hpair := List.pairwise_cons.mp (hcons ▸ hs)
      have := hpair.1 _ hm
      simpa [distLe] using this

/-- Closed instance of C3 at a concrete two-entry store with `k = 1`,
discharging the no-duplicate-keys hypothesis. -/
theorem C3_knn_sorted_witness :
    (((⟨[("a", [0]), ("b", [3])]⟩ : Vemcache).storage.map Prod.fst).Nodup) ∧
    ((Vemcache.k_nearest_neighbors ⟨[("a", [0]), ("b", [3])]⟩ [1] 1).length =
        min 1 ((⟨[("a", [0]), ("b", [3])]⟩ : Vemcache).storage.length) ∧
      (Vemcache.k_nearest_neighbors ⟨[("a", [0]), ("b", [3])]⟩ [1] 1).Pairwise
        (fun a b => Vemcache.euclidean_distance_sq [1] a.2 ≤
          Vemcache.euclidean_distance_sq [1] b.2) ∧
      (∀ p ∈ (⟨[("a", [0]), ("b", [3])]⟩ : Vemcache).storage, 1 ≤ 1 →
        Vemcache.euclidean_distance_sq [1]
            (((Vemcache.k_nearest_neighbors ⟨[("a", [0]), ("b", [3])]⟩ [1]
              1).headD ("", [])).2) ≤
          Vemcache.euclidean_distance_sq [1] p.2)) :=
  ⟨by decide, C3_knn_sorted ⟨[("a", [0]), ("b", [3])]⟩ [1] 1 (by decide)⟩

/-- C3 counterexample: with one stored vector of length 4 and a query of
length 2, the claimed length `min k (number of eligible stored vectors)`
is 0, but the function returns one neighbor. -/
theorem C3_counterexample :
    (Vemcache.k_nearest_neighbors ⟨[("b", [0, 0, 0, 0])]⟩ [1, 1] 2).length = 1 ∧
    ([("b", ([0, 0, 0, 0] : Vector))].filter
      (fun p => p.2.length = ([1, 1] : Vector).length)).length = 0 ∧
    (1 : Nat) ≠ min 2 0 := by
  refine ⟨?_, by decide, by decide⟩
  norm_num [Vemcache.k_nearest_neighbors, List.mergeSort, Vemcache.get,
    Vemcache.euclidean_distance_sq, distLe, List.merge]

/-! ### Cosine similarity (C2) -/

/-- C2 counterexample: on the zero vector (length agreement, magnitude
exactly zero) `cosine_similarity` returns a value, not a not-computable
signal; the implementation then divides by the zero magnitude, yielding
NaN rather than `None`. -/
theorem C2_counterexample :
    Vemcache.cosine_similarity [(0 : ℚ)] [0] = some (0, 0, 0) ∧
    Vemcache.cosine_similarity [(0 : ℚ)] [0] ≠ none := by
  have h : Vemcache.cosine_similarity [(0 : ℚ)] [0] = some (0, 0, 0) := by
    norm_num [Vemcache.cosine_similarity]
  exact ⟨h, by rw [h]; exact Option.some_ne_none _⟩

/-- C2 amended: `cosine_similarity` signals incompatible (`none`) when the
lengths differ, and for equal lengths it always returns the dot product
and squared magnitudes from which the implementation forms its quotient —
also when a magnitude is exactly zero, in which case the division the
implementation performs is by zero (NaN), not a not-computable signal. -/
theorem C2_cosine_guards (v1 v2 : Vector) :
    (v1.length ≠ v2.length → Vemcache.cosine_similarity v1 v2 = none) ∧
    (v1.length = v2.length →
      Vemcache.cosine_similarity v1 v2 =
        some (((v1.zip v2).map (fun p => p.1 * p.2)).sum,
          (v1.map (fun x => x ^ 2)).sum, (v2.map (fun x => x ^ 2)).sum)) := by
  constructor
  · intro h
    simp [Vemcache.cosine_similarity, h]
  · intro h
    simp [Vemcache.cosine_similarity, h]

/-- Closed instance of C2 discharging each hypothesis: a length mismatch
yields `none`, and the zero vector (magnitude zero) still yields a value. -/
theorem C2_cosine_guards_witness :
    Vemcache.cosine_similarity [(1 : ℚ)] [1, 2] = none ∧
    Vemcache.cosine_similarity [(0 : ℚ)] [0] =
      some (((([(0 : ℚ)]).zip [0]).map (fun p => p.1 * p.2)).sum,
        (([(0 : ℚ)]).map (fun x => x ^ 2)).sum,
        (([(0 : ℚ)] : Vector).map (fun x => x ^ 2)).sum) :=
  ⟨(C2_cosine_guards [(1 : ℚ)] [1, 2]).1 (by decide),
    (C2_cosine_guards [(0 : ℚ)] [0]).2 rfl⟩

/-! ### Command parsing (C4) -/

/-- C4.  `parse_command` is a total function into
`Except String Command`: on every input it returns either a well-formed
typed command or a typed error with a short diagnostic.  In particular a
missing required argument yields the respective `Missing ...` error, a
non-integer `k` for `knn` yields `Invalid k value`, and a non-float scalar
for `vscale` yields `Invalid scalar value`. -/
theorem C4_parse_total_and_typed_errors :
    (∀ input : String, (∃ c, parse_command input = .ok c) ∨
      (∃ e, parse_command input = .error e)) ∧
    (parse_tokens ["knn"] = .error "Missing key") ∧
    (∀ key, parse_tokens ["knn", key] = .error "Missing k") ∧
    (∀ key ktok rest, parseNat ktok = none →
      parse_tokens ("knn" :: key :: ktok :: rest) = .error "Invalid k value") ∧
    (parse_tokens ["vscale"] = .error "Missing key") ∧
    (∀ key, parse_tokens ["vscale", key] = .error "Missing scalar") ∧
    (∀ key stok rest, parseF32 stok = none →
      parse_tokens ("vscale" :: key :: stok :: rest) = .error "Invalid scalar value") := by
  refine ⟨?_, rfl, fun key => rfl, ?_, rfl, fun key => rfl, ?_⟩
  · intro input
    cases parse_command input with
    | ok c => exact .inl ⟨c, rfl⟩
    | error e => exact .inr ⟨e, rfl⟩
  · intro key ktok rest h
    have hred : parse_tokens ("knn" :: key :: ktok :: rest) =
        (match parseNat ktok with
         | some k => Except.ok (Command.KNearestNeighbors key k)
         | none => Except.error "Invalid k value") := rfl
    rw [hred, h]
  · intro key stok rest h
    have hred : parse_tokens ("vscale" :: key :: stok :: rest) =
        (match parseF32 stok with
         | some scalar => Except.ok (Command.VectorScaling key scalar)
         | none => Except.error "Invalid scalar value") := rfl
    rw [hred, h]

/-- Closed instance of C4 discharging each hypothesis: the non-integer
token `x` after `knn` and the non-float token `y` after `vscale` produce
the respective typed errors. -/
theorem C4_parse_witness :
    parseNat "x" = none ∧
    parse_tokens ["knn", "a", "x"] = .error "Invalid k value" ∧
    parseF32 "y" = none ∧
    parse_tokens ["vscale", "a", "y"] = .error "Invalid scalar value" :=
  ⟨by decide, C4_parse_total_and_typed_errors.2.2.2.1 "a" "x" [] (by decide),
    by decide, C4_parse_total_and_typed_errors.2.2.2.2.2.2 "a" "y" [] (by decide)⟩

/-! ### Protocol responses (C8), frame property (C9), empty inserts (C10) -/

/-- C8.  The `vadd` handler answers `One or both keys not found` when a key
is absent, `Vectors are not compatible for addition` when both keys are
present but the stored lengths differ, and `Result: <vector>` with the
element-wise sum when both are present with equal lengths. -/
theorem C8_vadd_responses (db : Vemcache) (k1 k2 : String) :
    ((db.get k1 = none ∨ db.get k2 = none) →
      handle_vector_addition db k1 k2 = "One or both keys not found\n") ∧
    (∀ v1 v2, db.get k1 = some v1 → db.get k2 = some v2 → v1.length ≠ v2.length →
      handle_vector_addition db k1 k2 =
        "Vectors are not compatible for addition\n") ∧
    (∀ v1 v2, db.get k1 = some v1 → db.get k2 = some v2 → v1.length = v2.length →
      handle_vector_addition db k1 k2 =
        "Result: " ++ formatVector ((v1.zip v2).map (fun p => p.1 + p.2)) ++ "\n") := by
  refine ⟨?_, ?_, ?_⟩
  · rintro (h | h)
    · cases h2 : db.get k2 <;> simp [handle_vector_addition, h, h2]
    · cases h1 : db.get k1 <;> simp [handle_vector_addition, h, h1]
  · intro v1 v2 h1 h2 hlen
    simp [handle_vector_addition, Vemcache.vector_addition, h1, h2, hlen]
  · intro v1 v2 h1 h2 hlen
    simp [handle_vector_addition, Vemcache.vector_addition, h1, h2, hlen]

/-- Closed instance of C8 discharging each hypothesis: an absent key, a
length mismatch, and a compatible pair, each with its response line. -/
theorem C8_vadd_responses_witness :
    handle_vector_addition ⟨[("a", [1, 2])]⟩ "a" "zz" =
      "One or both keys not found\n" ∧
    handle_vector_addition ⟨[("a", [1, 2]), ("b", [3, 4, 5])]⟩ "a" "b" =
      "Vectors are not compatible for addition\n" ∧
    handle_vector_addition ⟨[("a", [1, 2]), ("b", [3, 4])]⟩ "a" "b" =
      "Result: " ++
        formatVector ((([1, 2] : Vector).zip [3, 4]).map (fun p => p.1 + p.2)) ++
          "\n" :=
  ⟨(C8_vadd_responses ⟨[("a", [1, 2])]⟩ "a" "zz").1 (.inr (by decide)),
    (C8_vadd_responses ⟨[("a", [1, 2]), ("b", [3, 4, 5])]⟩ "a" "b").2.1
      [1, 2] [3, 4, 5] (by decide) (by decide) (by decide),
    (C8_vadd_responses ⟨[("a", [1, 2]), ("b", [3, 4])]⟩ "a" "b").2.2
      [1, 2] [3, 4] (by decide) (by decide) rfl⟩

/-- C9.  Every read-only command — `get`, `knn`, `vadd`, `vsub`, `vscale`,
`vcosine` — leaves the key-to-vector mapping of the store unchanged: the
store component returned by `step` equals the store it was given. -/
theorem C9_numeric_ops_frame (db : Vemcache) (u key k1 k2 : VectorId)
    (k : Nat) (scalar : ℚ) :
    (step db (.Get key) u).1 = db ∧
    (step db (.KNearestNeighbors key k) u).1 = db ∧
    (step db (.VectorAddition k1 k2) u).1 = db ∧
    (step db (.VectorSubtraction k1 k2) u).1 = db ∧
    (step db (.VectorScaling key scalar) u).1 = db ∧
    (step db (.CosineSimilarity k1 k2) u).1 = db :=
  ⟨rfl, rfl, rfl, rfl, rfl, rfl⟩

/-- C10.  An `insert` line with at least one value token, none of which
parses as a float, parses to `Insert []` (not an error); dispatching it
stores the empty vector under the drawn UUID and answers `OK`.  Likewise
`named_insert` with a key and only unparseable value tokens stores the
empty vector under that key. -/
theorem C10_unparseable_values_insert_empty :
    (∀ (input : String) (rest : List String), tokenize input = "insert" :: rest →
      rest ≠ [] → (∀ t ∈ rest, parseF32 t = none) →
      parse_command input = .ok (.Insert [])) ∧
    (∀ (db : Vemcache) (u : VectorId),
      step db (.Insert []) u = (db.insert_with_key u [], "OK\n") ∧
      (db.insert_with_key u []).get u = some []) ∧
    (∀ (input : String) (key : String) (rest : List String),
      tokenize input = "named_insert" :: key :: rest →
      rest ≠ [] → (∀ t ∈ rest, parseF32 t = none) →
      parse_command input = .ok (.NamedInsert key [])) ∧
    (∀ (db : Vemcache) (key : String) (u : VectorId),
      step db (.NamedInsert key []) u = (db.insert_with_key key [], "OK\n") ∧
      (db.insert_with_key key []).get key = some []) := by
  refine ⟨?_, ?_, ?_, ?_⟩
  · intro input rest htok hne hall
    unfold parse_command
    rw [htok]
    rcases rest with _ | ⟨r0, rs⟩
    · exact absurd rfl hne
    · have hred : parse_tokens ("insert" :: r0 :: rs) =
          Except.ok (Command.Insert ((r0 :: rs).filterMap parseF32)) := rfl
      rw [hred, List.filterMap_eq_nil_iff.mpr hall]
  · intro db u
    exact ⟨rfl, Vemcache.get_insert_self db u []⟩
  · intro input key rest htok hne hall
    unfold parse_command
    rw [htok]
    rcases rest with _ | ⟨r0, rs⟩
    · exact absurd rfl hne
    · have hred : parse_tokens ("named_insert" :: key :: r0 :: rs) =
          Except.ok (Command.NamedInsert key ((r0 :: rs).filterMap parseF32)) := rfl
      rw [hred, List.filterMap_eq_nil_iff.mpr hall]
  · intro db key u
    exact ⟨rfl, Vemcache.get_insert_self db key []⟩

/-- Closed instance of C10 discharging each hypothesis: the line
`insert foo` parses to an empty insert and stores the empty vector under
the drawn UUID, and `named_insert k foo` stores it under `k`. -/
theorem C10_unparseable_values_witness :
    parse_command "insert foo" = .ok (.Insert []) ∧
    step Vemcache.new (.Insert []) "u1" =
      (Vemcache.new.insert_with_key "u1" [], "OK\n") ∧
    (Vemcache.new.insert_with_key "u1" []).get "u1" = some [] ∧
    parse_command "named_insert k foo" = .ok (.NamedInsert "k" []) ∧
    (Vemcache.new.insert_with_key "k" []).get "k" = some [] :=
  ⟨C10_unparseable_values_insert_empty.1 "insert foo" ["foo"] (by decide)
      (by decide) (by decide),
    (C10_unparseable_values_insert_empty.2.1 Vemcache.new "u1").1,
    (C10_unparseable_values_insert_empty.2.1 Vemcache.new "u1").2,
    C10_unparseable_values_insert_empty.2.2.1 "named_insert k foo" "k" ["foo"]
      (by decide) (by decide) (by decide),
    (C10_unparseable_values_insert_empty.2.2.2 Vemcache.new "k" "u1").2⟩

end VemcacheModel
